import Mathlib

/-!
Verification of the stock analytics dashboard pipeline (stock_dashboard.py).

The table of price records is embedded as a list of rows (ticker, date, close);
dates are natural numbers encoded as yyyymm * 100 + dd, so that the month of a
date is recovered by integer division by 100 (modelling `dt.to_period("M")`).
Prices and returns are exact rationals; pandas NaN entries are represented with
`Option`, and the partiality of division is the usual junk-value convention
(x / 0 = 0).  The global `sort_values("date")` is embedded as a stable
insertion sort on the date key.
-/

namespace StockDashboard

structure Row where
  ticker : String
  date : ℕ
  close : ℚ
deriving DecidableEq, Repr

/-- The month of an encoded date, modelling `df["date"].dt.to_period("M")`. -/
def monthOf (d : ℕ) : ℕ := d / 100

/-- Date ordering on rows, the key of `df.sort_values("date")`. -/
def dateRel (a b : Row) : Prop := a.date ≤ b.date

instance : DecidableRel dateRel := fun a b => Nat.decLe a.date b.date

instance : IsTotal Row dateRel := ⟨fun a b => Nat.le_total a.date b.date⟩

instance : IsTrans Row dateRel := ⟨fun _ _ _ h h' => Nat.le_trans h h'⟩

/-- `df.sort_values("date")`: the table sorted ascending by date. -/
def sortByDate (rows : List Row) : List Row := List.insertionSort dateRel rows

/-- The (chronological) rows of one ticker, as produced by grouping the
date-sorted table by ticker. -/
def tickerRows (d : List Row) (t : String) : List Row :=
  (sortByDate d).filter (fun r => r.ticker = t)

/-- The chronological close series of one ticker. -/
def tickerCloses (d : List Row) (t : String) : List ℚ :=
  (tickerRows d t).map (fun r => r.close)

/-- Helper for `pct_change`: one-step relative changes against the previous
element. -/
def dailyAux (prev : ℚ) : List ℚ → List (Option ℚ)
  | [] => []
  | x :: xs => some ((x - prev) / prev) :: dailyAux x xs

/-- `groupby("ticker")["close"].pct_change(fill_method=None)` on one ticker's
chronological close series: null for the first observation, then the one-step
relative change. -/
def dailyReturns : List ℚ → List (Option ℚ)
  | [] => []
  | c :: cs => none :: dailyAux c cs

/-- `(1 + x.fillna(0))` applied elementwise to a daily-return series. -/
def growthFactors (drs : List (Option ℚ)) : List ℚ :=
  drs.map (fun o => 1 + o.getD 0)

/-- `cumprod`: the list of running (inclusive) products. -/
def cumprod (l : List ℚ) : List ℚ := (l.scanl (fun a x => a * x) 1).tail

/-- Line 53 of the source: the cumulative-return column of one ticker,
`(1 + daily_return.fillna(0)).cumprod()`.  Note that the code stores the
running product itself, with no final subtraction of 1. -/
def cumulativeReturn (closes : List ℚ) : List ℚ :=
  cumprod (growthFactors (dailyReturns closes))

/-- Lines 55-57: `(latest["close"] - first["close"]) / first["close"]` for one
ticker, where `first`/`last` are taken over the date-sorted table. -/
def yearlyReturn (closes : List ℚ) : ℚ :=
  (closes.getLastD 0 - closes.headI) / closes.headI

/-- Line 58: `df["yearly_return"] = df["ticker"].map(df_yearly)` — each row
receives the yearly return of its own ticker. -/
def yearlyOfRow (d : List Row) (r : Row) : ℚ :=
  yearlyReturn (tickerCloses d r.ticker)

end StockDashboard

namespace StockDashboard

/- Basic structural lemmas about the embedded pipeline. -/

theorem length_cumprod (l : List ℚ) : (cumprod l).length = l.length := by
  simp [cumprod, List.length_scanl]

theorem scanl_mul_head? (b : ℚ) (l : List ℚ) :
    (l.scanl (fun a x => a * x) b).head? = some b := by
  cases l <;> simp [List.scanl]

theorem scanl_mul_getD (l : List ℚ) : ∀ (b : ℚ) (i : ℕ), i < l.length →
    ((l.scanl (fun a x => a * x) b).tail).getD i 0 = b * (l.take (i + 1)).prod := by
  induction l with
  | nil => intro b i h; simp at h
  | cons x xs ih =>
    intro b i h
    cases i with
    | zero =>
      cases xs <;> simp [List.scanl]
    | succ i =>
      have hx : i < xs.length := by simpa using h
      have step : ((xs.scanl (fun a x => a * x) (b * x)).tail).getD i 0
          = (b * x) * (xs.take (i + 1)).prod := ih (b * x) i hx
      have tl : ((x :: xs).scanl (fun a x => a * x) b).tail
          = xs.scanl (fun a x => a * x) (b * x) := by
        simp [List.scanl]
      calc (((x :: xs).scanl (fun a x => a * x) b).tail).getD (i + 1) 0
          = (xs.scanl (fun a x => a * x) (b * x)).getD (i + 1) 0 := by rw [tl]
        _ = ((xs.scanl (fun a x => a * x) (b * x)).tail).getD i 0 := by
              cases xs <;> simp [List.scanl]
        _ = (b * x) * (xs.take (i + 1)).prod := step
        _ = b * ((x :: xs).take (i + 1 + 1)).prod := by
              simp [List.take, mul_assoc]

theorem cumprod_getD (l : List ℚ) (i : ℕ) (h : i < l.length) :
    (cumprod l).getD i 0 = (l.take (i + 1)).prod := by
  have := scanl_mul_getD l 1 i h
  simpa [cumprod] using this

/-- The scenario ticker of §8 of the spec: closes 10, 11, 9.9 on three
consecutive days. -/
def D_A : List Row := [⟨"aaa", 1, 10⟩, ⟨"aaa", 2, 11⟩, ⟨"aaa", 3, 99 / 10⟩]

/-- Claim C1, counterexample.  The code stores the raw running product
`(1 + daily_return.fillna(0)).cumprod()` and never subtracts 1: for the
spec's scenario ticker with closes 10, 11, 9.9 the final stored
cumulative_return is 0.99, not the claimed 1.10 * 0.90 - 1 = -0.01. -/
theorem C1_counterexample :
    (cumulativeReturn (tickerCloses D_A "aaa")).getLastD 0 = 99 / 100 ∧
    ¬ ((99 : ℚ) / 100 = (1 + 1 / 10) * (1 + (-1) / 10) - 1) := by
  constructor
  · norm_num [cumulativeReturn, tickerCloses, tickerRows, sortByDate, D_A,
      List.insertionSort, List.orderedInsert, dateRel, dailyReturns, dailyAux,
      growthFactors, cumprod, List.scanl]
  · norm_num

/-- Claim C1, amended: for every ticker, the cumulative_return value at each
record equals the running product of (1 + daily_return) over that ticker's
chronological series up to that record — with the first record's null
daily_return treated as 0 — WITHOUT the final subtraction of 1 (the code
stores the raw compounding product; for closes [10, 11, 9.9] the final value
is 1.10 * 0.90 = 0.99). -/
theorem C1_thm (d : List Row) (t : String) (i : ℕ)
    (hi : i < (cumulativeReturn (tickerCloses d t)).length) :
    (cumulativeReturn (tickerCloses d t)).getD i 0 =
      ((growthFactors (dailyReturns (tickerCloses d t))).take (i + 1)).prod := by
  have h : i < (growthFactors (dailyReturns (tickerCloses d t))).length := by
    simpa [cumulativeReturn, length_cumprod] using hi
  simpa [cumulativeReturn] using cumprod_getD _ i h

/-- Witness for the amended claim C1, at the scenario ticker and its final
record. -/
theorem C1_witness :
    2 < (cumulativeReturn (tickerCloses D_A "aaa")).length ∧
    (cumulativeReturn (tickerCloses D_A "aaa")).getD 2 0 =
      ((growthFactors (dailyReturns (tickerCloses D_A "aaa"))).take (2 + 1)).prod :=
  ⟨by decide, C1_thm D_A "aaa" 2 (by decide)⟩

/-- Claim C9: for every ticker, the cumulative_return stored on the
chronologically-first record is exactly 1 — the first daily_return is null,
is filled with 0 for compounding, and the running product therefore starts
at 1 + 0 = 1 — regardless of the ticker's prices. -/
theorem C9_thm (d : List Row) (t : String) (h : tickerCloses d t ≠ []) :
    (cumulativeReturn (tickerCloses d t)).head? = some 1 := by
  obtain ⟨c, cs, hc⟩ := List.exists_cons_of_ne_nil h
  rw [hc]
  simp [cumulativeReturn, dailyReturns, growthFactors, cumprod, List.scanl,
    scanl_mul_head?]

/-- Witness for claim C9 at the scenario ticker. -/
theorem C9_witness :
    tickerCloses D_A "aaa" ≠ [] ∧
    (cumulativeReturn (tickerCloses D_A "aaa")).head? = some 1 :=
  ⟨by decide, C9_thm D_A "aaa" (by decide)⟩

theorem tickerRows_sorted (d : List Row) (t : String) :
    List.Sorted dateRel (tickerRows d t) :=
  List.Pairwise.filter _ (List.sorted_insertionSort dateRel d)

/-- Claim C4: for every ticker with nonzero first close, yearly_return equals
(last close - first close) / first close over the ticker's chronological
series, the same value is broadcast to every record of the ticker (line 58),
and a single-observation ticker gets yearly_return 0; the chronological
reading of first/last is justified by the sortedness of the ticker's rows. -/
theorem C4_thm (d : List Row) (t : String) (c : ℚ) (cs : List ℚ)
    (h : tickerCloses d t = c :: cs) (hc : c ≠ 0) :
    yearlyReturn (tickerCloses d t) = ((c :: cs).getLastD 0 - c) / c ∧
    (cs = [] → yearlyReturn (tickerCloses d t) = 0) ∧
    (∀ r ∈ tickerRows d t, yearlyOfRow d r = yearlyReturn (tickerCloses d t)) ∧
    List.Sorted dateRel (tickerRows d t) := by
  refine ⟨?_, ?_, ?_, tickerRows_sorted d t⟩
  · rw [h]; simp [yearlyReturn]
  · intro hcs; subst hcs; rw [h]; simp [yearlyReturn]
  · intro r hr
    have ht : r.ticker = t := by
      have := (List.mem_filter.mp hr).2
      simpa using this
    simp [yearlyOfRow, ht]

/-- Witness for claim C4 at the scenario ticker: yearly return
(9.9 - 10) / 10. -/
theorem C4_witness :
    tickerCloses D_A "aaa" = 10 :: [11, 99 / 10] ∧
    yearlyReturn (tickerCloses D_A "aaa") =
      (((10 : ℚ) :: [11, 99 / 10]).getLastD 0 - 10) / 10 := by
  have h : tickerCloses D_A "aaa" = 10 :: [11, 99 / 10] := by
    norm_num [tickerCloses, tickerRows, sortByDate, D_A, List.insertionSort,
      List.orderedInsert, dateRel]
  exact ⟨h, (C4_thm D_A "aaa" 10 [11, 99 / 10] h (by norm_num)).1⟩

theorem dailyAux_getD (l : List ℚ) : ∀ (prev : ℚ) (i : ℕ), i < l.length →
    (dailyAux prev l).getD i (some 0) =
      some ((l.getD i 0 - (prev :: l).getD i 0) / (prev :: l).getD i 0) := by
  induction l with
  | nil => intro prev i h; simp at h
  | cons x xs ih =>
    intro prev i h
    cases i with
    | zero => simp [dailyAux]
    | succ i =>
      have hx : i < xs.length := by simpa using h
      simpa [dailyAux] using ih x i hx

/-- Claim C5: daily_return over a ticker's chronological series is null at its
first observation and equals (close[t] - close[t-1]) / close[t-1] at every
later position; the formula looks only at consecutive positions of the close
series, so a non-uniform date gap is one step with no special handling, and
the sortedness clause makes the sequence date-ascending. -/
theorem C5_thm (d : List Row) (t : String) (c : ℚ) (cs : List ℚ)
    (h : tickerCloses d t = c :: cs)
    (hp : ∀ i, i + 1 < (c :: cs).length → (c :: cs).getD i 0 ≠ 0) :
    (dailyReturns (tickerCloses d t)).head? = some none ∧
    (∀ i, i + 1 < (c :: cs).length →
      (dailyReturns (tickerCloses d t)).getD (i + 1) (some 0) =
        some (((c :: cs).getD (i + 1) 0 - (c :: cs).getD i 0) /
          (c :: cs).getD i 0)) ∧
    List.Sorted dateRel (tickerRows d t) := by
  refine ⟨?_, ?_, tickerRows_sorted d t⟩
  · rw [h]; simp [dailyReturns]
  · intro i hi
    rw [h]
    have hx : i < cs.length := by simpa using hi
    simpa [dailyReturns] using dailyAux_getD cs c i hx

/-- Witness for claim C5 at the scenario ticker: the first daily return is
null and the second equals (11 - 10) / 10. -/
theorem C5_witness :
    (dailyReturns (tickerCloses D_A "aaa")).head? = some none ∧
    (dailyReturns (tickerCloses D_A "aaa")).getD 1 (some 0) = some (1 / 10) := by
  have h : tickerCloses D_A "aaa" = 10 :: [11, 99 / 10] := by
    norm_num [tickerCloses, tickerRows, sortByDate, D_A, List.insertionSort,
      List.orderedInsert, dateRel]
  have hp : ∀ i, i + 1 < ((10 : ℚ) :: [11, 99 / 10]).length →
      ((10 : ℚ) :: [11, 99 / 10]).getD i 0 ≠ 0 := by
    intro i hi
    have hi2 : i < 2 := by simp at hi; omega
    interval_cases i <;> norm_num
  have T := C5_thm D_A "aaa" 10 [11, 99 / 10] h hp
  refine ⟨T.1, ?_⟩
  have := T.2.1 0 (by norm_num)
  norm_num at this
  simpa using this

/-- Lines 24-42 of the source: the static ticker-to-sector map. -/
def niftySectorMap : List (String × String) :=
  [("adaniports", "Services"), ("adanienterprises", "Services"),
   ("adani_green", "Power"), ("adani_total_gas", "Oil & Gas"),
   ("adani_power", "Power"), ("asianpaints", "Consumer Goods"),
   ("axisbank", "Banking"), ("baidulifesciences", "Pharma"),
   ("bharti_airtel", "Services"), ("bajaj_auto", "Auto"),
   ("bajaj_finance", "Finance"), ("bajaj_finserv", "Finance"),
   ("bharatforge", "Auto"), ("bharat_pe", "Services"),
   ("bharat_heavy_electricals", "Industrial"),
   ("bharat_petroleum", "Oil & Gas"), ("bhp", "Mining"),
   ("bpcl", "Oil & Gas"), ("castrol_india", "Oil & Gas"),
   ("cipla", "Pharma"), ("coal_india", "Mining"),
   ("divis_labs", "Pharma"), ("dr_reddys", "Pharma"),
   ("eicher_motors", "Auto"), ("gail", "Oil & Gas"),
   ("grasim_industries", "Industrial"), ("hcl_technologies", "Technology"),
   ("hdfc_bank", "Banking"), ("hdfc", "Finance"),
   ("hero_motocorp", "Auto"), ("hindalco_industries", "Metals"),
   ("hindustan_unilever", "Consumer Goods"), ("icici_bank", "Banking"),
   ("indusind_bank", "Banking"), ("infosys", "Technology"),
   ("jsw_steel", "Metals"), ("kotak_mahindra_bank", "Banking"),
   ("larsen_toubro", "Industrial"), ("mahindra", "Auto"),
   ("maruti_suzuki", "Auto"), ("ntpc", "Power"), ("ongc", "Oil & Gas"),
   ("power_grid", "Power"), ("reliance", "Oil & Gas"),
   ("sbicard", "Finance"), ("state_bank_of_india", "Banking"),
   ("sun_pharma", "Pharma"), ("tata_consultancy_services", "Technology"),
   ("tata_motors", "Auto"), ("tata_steel", "Metals"),
   ("tech_mahindra", "Technology"), ("titans", "Consumer Goods"),
   ("ultratech_cement", "Cement"), ("wipro", "Technology")]

/-- Line 47: `df["ticker"].map(nifty_sector_map).fillna("Unknown")`. -/
def sector (t : String) : String :=
  (niftySectorMap.lookup t).getD ("Unknown")

/-- The pandas mean of a rational series (with the junk value 0 on an empty
series, where pandas would give NaN). -/
def mean (l : List ℚ) : ℚ := l.sum / l.length

/-- The rows of the table belonging to sector `s`. -/
def sectorRows (d : List Row) (s : String) : List Row :=
  (sortByDate d).filter (fun r => sector r.ticker = s)

/-- Line 112: `df.groupby("sector")["yearly_return"].mean()` — the mean of the
yearly_return column over ALL records of sector `s` (each row of the enriched
table carries its ticker's yearly return). -/
def sector_perf (d : List Row) (s : String) : ℚ :=
  mean ((sectorRows d s).map (fun r => yearlyOfRow d r))

/-- The distinct tickers of the table, in order of first appearance. -/
def tickersOf (d : List Row) : List String :=
  ((sortByDate d).map (fun r => r.ticker)).dedup

/-- Modelled from the spec's words, for comparison with `sector_perf`: the
unweighted arithmetic mean of yearly_return over exactly the set of tickers
mapped to sector `s` (one value per ticker). -/
def specSectorPerf (d : List Row) (s : String) : ℚ :=
  mean (((tickersOf d).filter (fun t => sector t = s)).map
    (fun t => yearlyReturn (tickerCloses d t)))

/-- The multiset of tickers of the sector-`s` rows, one occurrence per
record. -/
def sectorTickMS (d : List Row) (s : String) : Multiset String :=
  ((sectorRows d s).map (fun r => r.ticker) : List String)

/-- Claim C2, counterexample.  With two unmapped tickers "aaa" (two records,
yearly_return 1) and "bbb" (one record, yearly_return 0), the code's sector
mean over the "Unknown" bucket is (1 + 1 + 0) / 3 = 2/3 — each ticker
weighted by its record count — while the unweighted per-ticker mean of the
claim is (1 + 0) / 2 = 1/2. -/
theorem C2_counterexample :
    sector_perf [⟨"aaa", 1, 10⟩, ⟨"aaa", 2, 20⟩, ⟨"bbb", 1, 10⟩] "Unknown"
      = 2 / 3 ∧
    specSectorPerf [⟨"aaa", 1, 10⟩, ⟨"aaa", 2, 20⟩, ⟨"bbb", 1, 10⟩] "Unknown"
      = 1 / 2 ∧
    ¬ ((2 : ℚ) / 3 = 1 / 2) := by
  refine ⟨?_, ?_, by norm_num⟩
  · simp +decide [sector_perf, sectorRows, sortByDate, List.insertionSort,
      List.orderedInsert, dateRel, sector, niftySectorMap, mean, yearlyOfRow,
      yearlyReturn, tickerCloses, tickerRows, List.lookup]
    norm_num
  · simp +decide [specSectorPerf, tickersOf, sortByDate, List.insertionSort,
      List.orderedInsert, dateRel, sector, niftySectorMap, mean,
      yearlyReturn, tickerCloses, tickerRows, List.lookup, List.dedup]
    norm_num

/-- Claim C2, amended: the sector performance value of sector `s` is the mean
of yearly_return over ALL records of sector `s` — i.e. the record-count
weighted mean over the sector's tickers,
(sum over tickers of count * yearly_return) / (sum of counts) — rather than
the unweighted one-value-per-ticker mean; "Unknown" is still a valid bucket
(the grouping applies to it like any other sector label). -/
theorem C2_thm (d : List Row) (s : String) :
    sector_perf d s =
      (∑ t ∈ (sectorTickMS d s).toFinset,
        ((sectorTickMS d s).count t : ℚ) * yearlyReturn (tickerCloses d t)) /
      (∑ t ∈ (sectorTickMS d s).toFinset, ((sectorTickMS d s).count t : ℚ)) := by
  have h1 : (Multiset.map (fun t => yearlyReturn (tickerCloses d t))
      (sectorTickMS d s)).sum
      = ((sectorRows d s).map (fun r => yearlyOfRow d r)).sum := by
    simp [sectorTickMS, List.map_map, yearlyOfRow, Function.comp_def]
  have hsum : ((sectorRows d s).map (fun r => yearlyOfRow d r)).sum
      = ∑ t ∈ (sectorTickMS d s).toFinset,
          ((sectorTickMS d s).count t : ℚ) * yearlyReturn (tickerCloses d t) := by
    rw [← h1, Finset.sum_multiset_map_count]
    simp [nsmul_eq_mul]
  have hcard : ∑ t ∈ (sectorTickMS d s).toFinset, (sectorTickMS d s).count t
      = Multiset.card (sectorTickMS d s) := Multiset.toFinset_sum_count_eq _
  have hlen : (((sectorRows d s).map (fun r => yearlyOfRow d r)).length : ℚ)
      = ∑ t ∈ (sectorTickMS d s).toFinset, ((sectorTickMS d s).count t : ℚ) := by
    rw [← Nat.cast_sum, hcard]
    simp [sectorTickMS]
  rw [sector_perf, mean, hsum, hlen]

/-!
Column labels of the exported Yearly Returns CSV.  A pandas column label is
either a positional integer or a string, embedded as `ℕ ⊕ String`.
-/

/-- pandas name propagation for binary series arithmetic: the operands'
common name if they agree, otherwise no name. -/
def combineName (a b : Option (ℕ ⊕ String)) : Option (ℕ ⊕ String) :=
  if a = b then a else none

/-- The name of the series `latest["close"]` (and of `first["close"]`): the
column it was selected from. -/
def closeSeriesName : Option (ℕ ⊕ String) := some (Sum.inr ("close"))

/-- The name of `df_yearly = (latest["close"] - first["close"]) /
first["close"]` (line 57): two name-preserving binary operations on
"close"-named series. -/
def yearlySeriesName : Option (ℕ ⊕ String) :=
  combineName (combineName closeSeriesName closeSeriesName) closeSeriesName

/-- `Series.reset_index()` on a ticker-indexed series: the index-name column
followed by the series' own name, a nameless series becoming the positional
column 0. -/
def resetIndexCols (idx : String) (nm : Option (ℕ ⊕ String)) :
    List (ℕ ⊕ String) :=
  [Sum.inr idx, nm.getD (Sum.inl 0)]

/-- `DataFrame.rename(columns={src: tgt})`: relabels the matching columns and
silently ignores an absent key. -/
def renameCol (src tgt : ℕ ⊕ String) (cols : List (ℕ ⊕ String)) :
    List (ℕ ⊕ String) :=
  cols.map (fun c => if c = src then tgt else c)

/-- Line 72: the header of the exported Yearly Returns CSV,
`df_yearly.reset_index().rename(columns={0: 'yearly_return'})`. -/
def csvYearlyCols : List (ℕ ⊕ String) :=
  renameCol (Sum.inl 0) (Sum.inr ("yearly_return"))
    (resetIndexCols ("ticker") yearlySeriesName)

/-- Claim C3: the rename targets the positional label 0, but the series is
named "close" (name propagation through the subtraction and division of
"close"-named series), so the rename is a no-op and the exported header is
`ticker,close` — not the `ticker,yearly_return` stated by the spec, which is
clearly what the author intended the rename to produce. -/
theorem C3_thm :
    csvYearlyCols = [Sum.inr ("ticker"), Sum.inr ("close")] ∧
    csvYearlyCols ≠ [Sum.inr ("ticker"), Sum.inr ("yearly_return")] := by
  decide

/-!
Volatility ranking (lines 90-100).
-/

/-- A ticker's valid (non-null) daily returns, as used by the NaN-skipping
`groupby("ticker")["daily_return"].std()`. -/
def validReturns (closes : List ℚ) : List ℚ :=
  (dailyReturns closes).filterMap id

/-- pandas sample variance (ddof = 1): defined only with at least two valid
observations, otherwise NaN (here `none`).  The displayed standard deviation
is its square root. -/
def sampleVar (l : List ℚ) : Option ℚ :=
  if 2 ≤ l.length then
    some ((l.map (fun x => (x - mean l) ^ 2)).sum / ((l.length : ℚ) - 1))
  else none

/-- The per-ticker volatility series
`df.groupby("ticker")["daily_return"].std()`, carrying the sample variance
(whose square root is the displayed standard deviation; the two orderings
agree). -/
def volSeries (d : List Row) : List (String × Option ℚ) :=
  (tickersOf d).map (fun t => (t, sampleVar (validReturns (tickerCloses d t))))

/-- The ordering of `sort_values(ascending=False)`: larger values first,
NaN (`none`) entries after every valid value. -/
def volRel (a b : String × Option ℚ) : Prop :=
  match a.2, b.2 with
  | some x, some y => y ≤ x
  | none, some _ => False
  | _, _ => True

instance : DecidableRel volRel := fun a b =>
  match a, b with
  | (_, some x), (_, some y) => inferInstanceAs (Decidable (y ≤ x))
  | (_, some _), (_, none) => inferInstanceAs (Decidable True)
  | (_, none), (_, some _) => inferInstanceAs (Decidable False)
  | (_, none), (_, none) => inferInstanceAs (Decidable True)

instance : IsTotal (String × Option ℚ) volRel := ⟨by
  rintro ⟨ta, oa⟩ ⟨tb, ob⟩
  rcases oa with _ | x <;> rcases ob with _ | y <;> simp [volRel]
  exact le_total y x⟩

instance : IsTrans (String × Option ℚ) volRel := ⟨by
  rintro ⟨ta, oa⟩ ⟨tb, ob⟩ ⟨tc, oc⟩ hab hbc
  rcases oa with _ | x <;> rcases ob with _ | y <;> rcases oc with _ | z <;>
    simp_all [volRel]
  exact le_trans hbc hab⟩

/-- Line 90: `volatility = df.groupby("ticker")["daily_return"].std()
.sort_values(ascending=False).head(10)` — the displayed top-10 list. -/
def volTop10 (d : List Row) : List (String × Option ℚ) :=
  (List.insertionSort volRel (volSeries d)).take 10

/-- The displayed standard deviation of a ranking entry: the square root of
the stored sample variance. -/
noncomputable def stdEntry (p : String × Option ℚ) : String × Option ℝ :=
  (p.1, p.2.map (fun v => Real.sqrt (v : ℝ)))

/-- Descending-with-NaN-last ordering on standard-deviation entries. -/
def stdRel (a b : String × Option ℝ) : Prop :=
  match a.2, b.2 with
  | some x, some y => y ≤ x
  | none, some _ => False
  | _, _ => True

/-- A single-record, single-ticker table. -/
def D_single : List Row := [⟨"aaa", 1, 10⟩]

/-- Claim C6, counterexample.  `sort_values` only places NaN entries last and
`head(10)` does not drop them: with a single ticker having a single record
(hence zero valid daily returns), that ticker appears in the displayed top-10
list with an undefined standard deviation. -/
theorem C6_counterexample :
    ("aaa", (none : Option ℚ)) ∈ volTop10 D_single ∧
    (validReturns (tickerCloses D_single "aaa")).length < 2 := by
  constructor
  · simp +decide [volTop10, volSeries, tickersOf, sortByDate, D_single,
      List.insertionSort, List.orderedInsert, dateRel, tickerCloses,
      tickerRows, sampleVar, validReturns, dailyReturns, List.dedup]
  · decide

/-- Claim C6, amended: every entry of the displayed top-10 volatility list
carries the NaN-skipping sample deviation statistic of its own ticker (the
stored sample variance, displayed as its square root); the list is sorted
descending both in the variance ordering and in the standard-deviation
ordering, with undefined entries after all defined ones; it has at most 10
entries; and a ticker with fewer than 2 valid daily_return observations never
appears in it PROVIDED at least 10 tickers have a defined (≥ 2 valid
observations) volatility — with fewer such tickers, undefined entries can
reach the displayed list (see the counterexample). -/
theorem C6_thm (d : List Row) :
    (∀ p ∈ volTop10 d, p.2 = sampleVar (validReturns (tickerCloses d p.1))) ∧
    List.Pairwise volRel (volTop10 d) ∧
    List.Pairwise stdRel ((volTop10 d).map stdEntry) ∧
    (volTop10 d).length ≤ 10 ∧
    (10 ≤ ((volSeries d).filter (fun p => p.2.isSome)).length →
      ∀ p ∈ volTop10 d, p.2.isSome) := by
  have hsorted : List.Pairwise volRel (List.insertionSort volRel (volSeries d)) :=
    List.sorted_insertionSort volRel (volSeries d)
  have hperm : (List.insertionSort volRel (volSeries d)).Perm (volSeries d) :=
    List.perm_insertionSort volRel (volSeries d)
  have hsub : (volTop10 d).Sublist (List.insertionSort volRel (volSeries d)) :=
    List.take_sublist 10 _
  have htake : List.Pairwise volRel (volTop10 d) := hsorted.sublist hsub
  refine ⟨?_, htake, ?_, ?_, ?_⟩
  · intro p hp
    have hp1 : p ∈ volSeries d := hperm.mem_iff.mp (hsub.subset hp)
    obtain ⟨t, _, ht⟩ := List.mem_map.mp hp1
    rw [← ht]
  · refine List.Pairwise.map stdEntry ?_ htake
    rintro ⟨ta, oa⟩ ⟨tb, ob⟩ h
    rcases oa with _ | x <;> rcases ob with _ | y <;>
      simp_all [volRel, stdRel, stdEntry]
    exact Real.sqrt_le_sqrt (by exact_mod_cast h)
  · simpa [volTop10] using List.length_take_le 10 _
  · intro hcount p hp
    by_contra hnone
    have hpn : p.2 = none := Option.not_isSome_iff_eq_none.mp hnone
    obtain ⟨l1, l2, hsplit⟩ := List.append_of_mem hp
    have hL : List.insertionSort volRel (volSeries d)
        = l1 ++ p :: (l2 ++ (List.insertionSort volRel (volSeries d)).drop 10) := by
      conv_lhs => rw [← List.take_append_drop 10
        (List.insertionSort volRel (volSeries d))]
      rw [show (List.insertionSort volRel (volSeries d)).take 10 = volTop10 d
        from rfl, hsplit]
      simp
    have hlen1 : l1.length ≤ 9 := by
      have h10 : (volTop10 d).length ≤ 10 := by
        simpa [volTop10] using List.length_take_le 10 _
      rw [hsplit] at h10
      simp at h10
      omega
    have hallnone : ∀ q ∈ p :: (l2 ++ (List.insertionSort volRel
        (volSeries d)).drop 10), ¬ (q.2.isSome = true) := by
      have hpw := hL ▸ hsorted
      have hrest := (List.pairwise_append.mp hpw).2.1
      have hrel := (List.pairwise_cons.mp hrest).1
      intro q hq
      rcases List.mem_cons.mp hq with hq | hq
      · subst hq
        simp [hpn]
      · have hv := hrel q hq
        rcases hq2 : q.2 with _ | v
        · simp
        · rw [volRel, hpn, hq2] at hv
          exact absurd hv (by simp)
    have hcnt0 : (p :: (l2 ++ (List.insertionSort volRel
        (volSeries d)).drop 10)).countP (fun q => q.2.isSome) = 0 :=
      List.countP_eq_zero.mpr hallnone
    have hcntL : (List.insertionSort volRel (volSeries d)).countP
        (fun q => q.2.isSome) ≤ 9 := by
      rw [hL, List.countP_append, hcnt0]
      have := List.countP_le_length (fun q : String × Option ℚ => q.2.isSome)
        (l := l1)
      omega
    have hcntS : (List.insertionSort volRel (volSeries d)).countP
        (fun q => q.2.isSome) = ((volSeries d).filter
          (fun p => p.2.isSome)).length := by
      rw [hperm.countP_eq, List.countP_eq_length_filter]
    omega

/-- Witness for the amended claim C6: at the scenario ticker, the sole
displayed entry carries exactly its own volatility statistic. -/
theorem C6_witness :
    ("aaa", sampleVar (validReturns (tickerCloses D_A "aaa"))) ∈ volTop10 D_A ∧
    ("aaa", sampleVar (validReturns (tickerCloses D_A "aaa"))).2
      = sampleVar (validReturns (tickerCloses D_A
          ("aaa", sampleVar (validReturns (tickerCloses D_A "aaa"))).1)) := by
  have hp : ("aaa", sampleVar (validReturns (tickerCloses D_A "aaa")))
      ∈ volTop10 D_A := by
    simp +decide [volTop10, volSeries, tickersOf, sortByDate, D_A,
      List.insertionSort, List.orderedInsert, dateRel, List.dedup]
  exact ⟨hp, (C6_thm D_A).1 _ hp⟩

/-!
Monthly summary (lines 130-148).
-/

/-- Line 133: the records of the selected month `m`. -/
def monthRows (d : List Row) (m : ℕ) : List Row :=
  (sortByDate d).filter (fun r => monthOf r.date = m)

/-- The distinct tickers having at least one record in month `m` — the group
keys of `monthly.groupby("ticker")`. -/
def monthTickers (d : List Row) (m : ℕ) : List String :=
  ((monthRows d m).map (fun r => r.ticker)).dedup

/-- One ticker's chronological closes within month `m`. -/
def monthCloses (d : List Row) (m : ℕ) (t : String) : List ℚ :=
  ((monthRows d m).filter (fun r => r.ticker = t)).map (fun r => r.close)

/-- Lines 134-135: one Monthly Summary row — ticker, first close in the
month, last close in the month, and
(last - first) / first, computed from the month's records alone. -/
def monthlyEntry (d : List Row) (m : ℕ) (t : String) : String × ℚ × ℚ × ℚ :=
  (t, (monthCloses d m t).headI, (monthCloses d m t).getLastD 0,
    ((monthCloses d m t).getLastD 0 - (monthCloses d m t).headI) /
      (monthCloses d m t).headI)

/-- The descending ordering on monthly_return used by
`sort_values("monthly_return", ascending=False)`. -/
def monthGe (a b : String × ℚ × ℚ × ℚ) : Prop := b.2.2.2 ≤ a.2.2.2

instance : DecidableRel monthGe := fun a b =>
  inferInstanceAs (Decidable (b.2.2.2 ≤ a.2.2.2))

instance : IsTotal (String × ℚ × ℚ × ℚ) monthGe :=
  ⟨fun a b => le_total b.2.2.2 a.2.2.2⟩

instance : IsTrans (String × ℚ × ℚ × ℚ) monthGe :=
  ⟨fun _ _ _ h h' => le_trans h' h⟩

/-- Line 136: the Monthly Summary table, one row per ticker present in month
`m`, sorted descending by monthly_return. -/
def monthlyTable (d : List Row) (m : ℕ) : List (String × ℚ × ℚ × ℚ) :=
  List.insertionSort monthGe ((monthTickers d m).map (monthlyEntry d m))

/-- Lines 147-148: the rows of the exported Monthly Returns CSV — the
already-sorted Monthly Summary table, exported as-is. -/
def csvMonthRows (d : List Row) (m : ℕ) : List (String × ℚ × ℚ × ℚ) :=
  monthlyTable d m

/-- Claim C7: the Monthly Summary for month `m` has a row for exactly the
tickers with at least one record in month `m` (a ticker without trading days
in `m` is simply absent); each row's monthly_return is
(last close in `m` - first close in `m`) / first close in `m`, computed from
the month's own chronological records only — the definition of
`monthlyEntry` never consults yearly or cumulative figures — and the month's
records are date-sorted. -/
theorem C7_thm (d : List Row) (m : ℕ) (t : String) :
    ((∃ p ∈ monthlyTable d m, p.1 = t) ↔ ∃ r ∈ monthRows d m, r.ticker = t) ∧
    (∀ p ∈ monthlyTable d m, p.1 = t →
      p.2.2.2 = ((monthCloses d m t).getLastD 0 - (monthCloses d m t).headI) /
        (monthCloses d m t).headI) ∧
    List.Sorted dateRel (monthRows d m) := by
  have hperm : (monthlyTable d m).Perm ((monthTickers d m).map (monthlyEntry d m)) :=
    List.perm_insertionSort monthGe _
  have hmem : ∀ p, p ∈ monthlyTable d m ↔
      ∃ t' ∈ monthTickers d m, monthlyEntry d m t' = p := by
    intro p
    rw [hperm.mem_iff]
    exact List.mem_map
  refine ⟨?_, ?_, List.Pairwise.filter _ (List.sorted_insertionSort dateRel d)⟩
  · constructor
    · rintro ⟨p, hp, hpt⟩
      obtain ⟨t', ht', hpe⟩ := (hmem p).mp hp
      have : t' = t := by rw [← hpe] at hpt; exact hpt
      subst this
      have := List.mem_dedup.mp ht'
      obtain ⟨r, hr, hrt⟩ := List.mem_map.mp this
      exact ⟨r, hr, hrt⟩
    · rintro ⟨r, hr, hrt⟩
      have ht : t ∈ monthTickers d m :=
        List.mem_dedup.mpr (List.mem_map.mpr ⟨r, hr, hrt⟩)
      exact ⟨monthlyEntry d m t, (hmem _).mpr ⟨t, ht, rfl⟩, rfl⟩
  · intro p hp hpt
    obtain ⟨t', _, hpe⟩ := (hmem p).mp hp
    have : t' = t := by rw [← hpe] at hpt; exact hpt
    subst this
    rw [← hpe]
    simp [monthlyEntry]

/-- A two-ticker, two-month table: "aaa" trades in month 1 only, "bbb" in
month 2 only. -/
def D_B : List Row := [⟨"aaa", 101, 10⟩, ⟨"aaa", 102, 12⟩, ⟨"bbb", 205, 7⟩]

/-- Witness for claim C7: in month 1, ticker "aaa" has a Monthly Summary row
and ticker "bbb" (no trading days in month 1) is absent. -/
theorem C7_witness :
    (∃ p ∈ monthlyTable D_B 1, p.1 = "aaa") ∧
    ¬ (∃ p ∈ monthlyTable D_B 1, p.1 = "bbb") := by
  constructor
  · exact (C7_thm D_B 1 "aaa").1.mpr ⟨⟨"aaa", 101, 10⟩, by decide, rfl⟩
  · intro h
    exact absurd ((C7_thm D_B 1 "bbb").1.mp h) (by decide)

/-- Claim C10: the exported Monthly Returns CSV rows are the Monthly Summary
rows sorted descending by monthly_return — the table is sorted on line 136
before the export on lines 147-148 re-uses it, an ordering the spec's CSV
description does not state. -/
theorem C10_thm (d : List Row) (m : ℕ) :
    List.Pairwise monthGe (csvMonthRows d m) ∧
    (csvMonthRows d m).Perm ((monthTickers d m).map (monthlyEntry d m)) :=
  ⟨List.sorted_insertionSort monthGe _, List.perm_insertionSort monthGe _⟩

/-!
Correlation heatmap (lines 120-122): pivot close to a date-by-ticker grid
(aggregating duplicate cells by mean), forward-fill, row-over-row percent
change, drop rows with any null, pairwise Pearson correlation.
-/

/-- The sorted distinct dates — the index of the pivot grid. -/
def allDates (d : List Row) : List ℕ :=
  ((sortByDate d).map (fun r => r.date)).dedup

/-- One raw pivot cell: `pivot_table(values="close", aggfunc="mean")` at
(date `dt`, ticker `t`); empty cells are null. -/
def cellRaw (d : List Row) (t : String) (dt : ℕ) : Option ℚ :=
  let xs := ((sortByDate d).filter
    (fun r => r.ticker = t ∧ r.date = dt)).map (fun r => r.close)
  if xs.isEmpty then none else some (mean xs)

/-- `.ffill()`: the last known close of ticker `t` at or before date `dt`,
null if the ticker has no record yet. -/
def ffillCell (d : List Row) (t : String) (dt : ℕ) : Option ℚ :=
  ((allDates d).filter (fun x => x ≤ dt)).foldl
    (fun acc x =>
      match cellRaw d t x with
      | some v => some v
      | none => acc) none

/-- The forward-filled pivot column of ticker `t`, one entry per grid date. -/
def colCloses (d : List Row) (t : String) : List (Option ℚ) :=
  (allDates d).map (ffillCell d t)

/-- Helper for the columnwise `pct_change()` on the pivot grid. -/
def pctColAux (prev : Option ℚ) : List (Option ℚ) → List (Option ℚ)
  | [] => []
  | c :: cs =>
    (match prev, c with
     | some p, some cv => some ((cv - p) / p)
     | _, _ => none) :: pctColAux c cs

/-- `pivot.pct_change()` down one column: null on the first grid row and
whenever either of the two adjacent cells is null. -/
def pctCol : List (Option ℚ) → List (Option ℚ)
  | [] => []
  | c :: cs => none :: pctColAux c cs

/-- `.dropna()`: the grid-row indices at which every ticker column has a
defined percent change. -/
def keptRows (d : List Row) : List ℕ :=
  (List.range (allDates d).length).filter
    (fun i => (tickersOf d).all
      (fun t => ((pctCol (colCloses d t)).getD i none).isSome))

/-- One ticker's return column after `dropna()`, the input to `corr()`. -/
def retCol (d : List Row) (t : String) : List ℚ :=
  (keptRows d).map (fun i => ((pctCol (colCloses d t)).getD i none).getD 0)

/-- The centred cross term of the Pearson correlation over two aligned
columns (the common normalising factors cancel in the ratio). -/
def covSum (x y : List ℚ) : ℚ :=
  ∑ i ∈ Finset.range (min x.length y.length),
    (x.getD i 0 - mean x) * (y.getD i 0 - mean y)

/-- Pearson correlation of two aligned columns, with the junk value 0 where
pandas produces NaN (a constant column has zero variance and a 0/0 entry). -/
noncomputable def corr (x y : List ℚ) : ℝ :=
  ((covSum x y : ℚ) : ℝ) /
    Real.sqrt (((covSum x x : ℚ) : ℝ) * ((covSum y y : ℚ) : ℝ))

/-- Line 122: one entry of `returns.corr()`. -/
noncomputable def corrMatrix (d : List Row) (t1 t2 : String) : ℝ :=
  corr (retCol d t1) (retCol d t2)

theorem covSum_comm (x y : List ℚ) : covSum x y = covSum y x := by
  rw [covSum, covSum, min_comm]
  exact Finset.sum_congr rfl (fun i _ => mul_comm _ _)

theorem covSum_self_nonneg (x : List ℚ) : 0 ≤ covSum x x :=
  Finset.sum_nonneg (fun i _ => mul_self_nonneg _)

theorem covSum_self_eq (x : List ℚ) :
    covSum x x = ∑ i ∈ Finset.range x.length, (x.getD i 0 - mean x) ^ 2 := by
  rw [covSum, min_self]
  exact Finset.sum_congr rfl (fun i _ => (pow_two _).symm)

theorem covSum_sq_le (x y : List ℚ) :
    (covSum x y) ^ 2 ≤ covSum x x * covSum y y := by
  have hcs := Finset.sum_mul_sq_le_sq_mul_sq (Finset.range (min x.length y.length))
    (fun i => x.getD i 0 - mean x) (fun i => y.getD i 0 - mean y)
  have hx : ∑ i ∈ Finset.range (min x.length y.length),
      (x.getD i 0 - mean x) ^ 2 ≤ covSum x x := by
    rw [covSum_self_eq]
    apply Finset.sum_le_sum_of_subset_of_nonneg
    · exact Finset.range_subset.mpr (min_le_left _ _)
    · intro i _ _
      positivity
  have hy : ∑ i ∈ Finset.range (min x.length y.length),
      (y.getD i 0 - mean y) ^ 2 ≤ covSum y y := by
    rw [covSum_self_eq]
    apply Finset.sum_le_sum_of_subset_of_nonneg
    · exact Finset.range_subset.mpr (min_le_right _ _)
    · intro i _ _
      positivity
  calc (covSum x y) ^ 2
      ≤ (∑ i ∈ Finset.range (min x.length y.length), (x.getD i 0 - mean x) ^ 2) *
        (∑ i ∈ Finset.range (min x.length y.length), (y.getD i 0 - mean y) ^ 2) := hcs
    _ ≤ covSum x x * covSum y y := by
        apply mul_le_mul hx hy (Finset.sum_nonneg (fun i _ => by positivity))
          (covSum_self_nonneg x)

theorem corr_comm (x y : List ℚ) : corr x y = corr y x := by
  simp only [corr]
  rw [covSum_comm x y,
    mul_comm (((covSum x x : ℚ) : ℝ)) (((covSum y y : ℚ) : ℝ))]

theorem abs_corr_le_one (x y : List ℚ) : |corr x y| ≤ 1 := by
  rw [corr]
  have hA : (0 : ℝ) ≤ ((covSum x x : ℚ) : ℝ) * ((covSum y y : ℚ) : ℝ) := by
    have h1 : (0 : ℝ) ≤ ((covSum x x : ℚ) : ℝ) := by
      exact_mod_cast covSum_self_nonneg x
    have h2 : (0 : ℝ) ≤ ((covSum y y : ℚ) : ℝ) := by
      exact_mod_cast covSum_self_nonneg y
    exact mul_nonneg h1 h2
  have hc2 : (((covSum x y : ℚ) : ℝ)) ^ 2
      ≤ ((covSum x x : ℚ) : ℝ) * ((covSum y y : ℚ) : ℝ) := by
    exact_mod_cast covSum_sq_le x y
  have habs : |((covSum x y : ℚ) : ℝ)|
      ≤ Real.sqrt (((covSum x x : ℚ) : ℝ) * ((covSum y y : ℚ) : ℝ)) := by
    have h1 := Real.sqrt_le_sqrt hc2
    rwa [Real.sqrt_sq_eq_abs] at h1
  rcases eq_or_lt_of_le (Real.sqrt_nonneg
      (((covSum x x : ℚ) : ℝ) * ((covSum y y : ℚ) : ℝ))) with h0 | h0
  · rw [← h0, div_zero]
    norm_num
  · rw [abs_div, abs_of_pos h0]
    exact (div_le_one h0).mpr habs

theorem corr_self (x : List ℚ) (h : covSum x x ≠ 0) : corr x x = 1 := by
  rw [corr]
  have hnn : (0 : ℝ) ≤ ((covSum x x : ℚ) : ℝ) := by
    exact_mod_cast covSum_self_nonneg x
  rw [Real.sqrt_mul_self hnn]
  exact div_self (by exact_mod_cast h)

/-- Claim C8, amended: the correlation matrix of the pivot/ffill/pct_change/
dropna pipeline is symmetric and all its entries lie in [-1, 1], but its
diagonal entries equal 1 only for tickers whose post-pipeline return column
is non-degenerate (nonzero centred square sum); a constant return column
gives an undefined (NaN, here junk-0) diagonal entry rather than 1. -/
theorem C8_thm (d : List Row) (t1 t2 : String) :
    corrMatrix d t1 t2 = corrMatrix d t2 t1 ∧
    |corrMatrix d t1 t2| ≤ 1 ∧
    (covSum (retCol d t1) (retCol d t1) ≠ 0 → corrMatrix d t1 t1 = 1) :=
  ⟨corr_comm _ _, abs_corr_le_one _ _, fun h => corr_self _ h⟩

/-- A single constant-price ticker: its return column is constantly zero. -/
def D_const : List Row := [⟨"bbb", 1, 5⟩, ⟨"bbb", 2, 5⟩]

/-- Claim C8, counterexample.  For a ticker with constant closes the
post-pipeline return column is constant, its variance is zero, and the
Pearson diagonal entry is 0/0 — NaN in pandas, the junk value 0 here — and in
particular NOT equal to 1.0 within any tolerance. -/
theorem C8_counterexample :
    corrMatrix D_const "bbb" "bbb" = 0 ∧ ¬ ((0 : ℝ) = 1) := by
  have hret : retCol D_const "bbb" = [0] := by
    simp +decide [retCol, keptRows, tickersOf, allDates, colCloses, ffillCell,
      cellRaw, pctCol, pctColAux, sortByDate, List.insertionSort,
      List.orderedInsert, dateRel, D_const, List.dedup, mean,
      List.range_succ, List.range_zero]
  have h0 : covSum (retCol D_const "bbb") (retCol D_const "bbb") = 0 := by
    rw [hret]
    simp [covSum, mean]
  refine ⟨?_, by norm_num⟩
  rw [corrMatrix, corr, h0]
  norm_num

/-- Witness for the amended claim C8 at the scenario ticker, whose return
column has nonzero variance: the diagonal entry is exactly 1 and the entry is
bounded by 1 in absolute value. -/
theorem C8_witness :
    covSum (retCol D_A "aaa") (retCol D_A "aaa") ≠ 0 ∧
    corrMatrix D_A "aaa" "aaa" = 1 ∧
    |corrMatrix D_A "aaa" "aaa"| ≤ 1 := by
  have hret : retCol D_A "aaa" = [1 / 10, -1 / 10] := by
    simp +decide [retCol, keptRows, tickersOf, allDates, colCloses, ffillCell,
      cellRaw, pctCol, pctColAux, sortByDate, List.insertionSort,
      List.orderedInsert, dateRel, D_A, List.dedup, List.pwFilter, mean,
      List.range_succ, List.range_zero]
    norm_num
  have hcov : covSum (retCol D_A "aaa") (retCol D_A "aaa") ≠ 0 := by
    rw [hret]
    simp [covSum, mean, Finset.sum_range_succ]
    norm_num
  exact ⟨hcov, (C8_thm D_A "aaa" "aaa").2.2 hcov, (C8_thm D_A "aaa" "aaa").2.1⟩

end StockDashboard
